import Mathlib

/-!
Verification development for the brixide server wrapper.

This file gives a shallow embedding of the parts of the program relevant to
the frozen claims: the JSON-RPC codec (`src/plugin/src/rpc.rs`, serde-derived
with `#[serde(untagged)]`), the payload types (`src/plugin/src/payloads.rs`,
`src/plugin/src/logging.rs`), the built-in log matchers
(`src/server/src/matchers.rs`), the match-engine loop of `main`
(`src/server/src/main.rs`, lines 216-331), and the plugin stdout router
(`src/server/src/plugins.rs`).

Conventions of the embedding:
* JSON objects are modelled as ordered association lists.  Field order on
  encoding is struct declaration order, as produced by the serde derives.
  (Modelled from the spec: the exact key order inside `serde_json` maps is
  fixed by a Cargo feature that is not part of the source tree; the spec's
  literal scenarios use insertion order, which is what this model produces.)
* Machine integers (`i32`) are modelled as `Int` with explicit range checks
  where the code's deserializer enforces them.
* Time (`Instant`/`Duration`) is modelled as `Nat` milliseconds; each
  processed record carries the single instant `now` observed while it is
  handled.
* Fallible operations return `Option`; an `unwrap` on a value the code can
  actually fail to produce is modelled explicitly (see `RouterOutcome`).
-/

/-- JSON values (`serde_json::Value`); objects keep their fields in order,
numbers are modelled as integers (no claim involves floats). -/
inductive Json where
  | null
  | bool (b : Bool)
  | num (n : Int)
  | str (s : String)
  | arr (elems : List Json)
  | obj (fields : List (String × Json))

namespace Json

/-- Look up the first occurrence of a key among an object's fields. -/
def lookupField (j : Json) (k : String) : Option Json :=
  match j with
  | .obj fs => (fs.find? (fun kv => kv.1 = k)).map (fun kv => kv.2)
  | _ => none

/-- The keys of an object, in order. -/
def objKeys (j : Json) : List String :=
  match j with
  | .obj fs => fs.map (fun kv => kv.1)
  | _ => []

end Json

/-- JSON string escaping as performed by `serde_json` when serializing. -/
def escapeJsonChar (c : Char) : String :=
  if c = '"' then "\\\""
  else if c = '\\' then "\\\\"
  else if c = '\x08' then "\\b"
  else if c = '\x09' then "\\t"
  else if c = '\x0a' then "\\n"
  else if c = '\x0c' then "\\f"
  else if c = '\x0d' then "\\r"
  else if c.toNat < 0x20 then
    "\\u00" ++ String.mk [(Nat.digitChar (c.toNat / 16)), (Nat.digitChar (c.toNat % 16))]
  else String.singleton c

/-- Serialize a string literal, quotes included. -/
def serializeString (s : String) : String :=
  "\"" ++ String.join (s.toList.map escapeJsonChar) ++ "\""

mutual

/-- Compact JSON serialization (`serde_json::to_string`). -/
def serializeJson : Json → String
  | .null => "null"
  | .bool true => "true"
  | .bool false => "false"
  | .num n => toString n
  | .str s => serializeString s
  | .arr xs => "[" ++ serializeArr xs ++ "]"
  | .obj fs => "\x7b" ++ serializeObj fs ++ "\x7d"

def serializeArr : List Json → String
  | [] => ""
  | [x] => serializeJson x
  | x :: y :: rest => serializeJson x ++ "," ++ serializeArr (y :: rest)

def serializeObj : List (String × Json) → String
  | [] => ""
  | [(k, v)] => serializeString k ++ ":" ++ serializeJson v
  | (k, v) :: kv :: rest =>
      serializeString k ++ ":" ++ serializeJson v ++ "," ++ serializeObj (kv :: rest)

end

namespace Rpc

/-- `rpc.rs`: `enum Id { Str(String), Int(i32) }`, `#[serde(untagged)]`. -/
inductive Id where
  | str (s : String)
  | int (n : Int)
deriving DecidableEq

/-- `rpc.rs`: `struct RpcError { code: i32, message: String, data: Option<Value> }`. -/
structure RpcError where
  code : Int
  message : String
  data : Option Json

/-- `rpc.rs`: `enum Message`, `#[serde(untagged)]`, variants in declaration
order `Notification`, `Request`, `Response`. -/
inductive Message where
  | Notification (jsonrpc : String) (method : String) (params : Option Json)
  | Request (jsonrpc : String) (id : Id) (method : String) (params : Option Json)
  | Response (jsonrpc : String) (id : Id) (result : Option Json) (error : Option RpcError)

/-- `Message::notification`: tags with protocol version "2.0". -/
def Message.notification (method : String) (params : Option Json) : Message :=
  .Notification "2.0" method params

/-- `Message::request`. -/
def Message.request (id : Id) (method : String) (params : Option Json) : Message :=
  .Request "2.0" id method params

/-- `Message::response`. -/
def Message.response (id : Id) (result : Option Json) (error : Option RpcError) : Message :=
  .Response "2.0" id result error

/-- `Message::method`: Some for Notifications/Requests, None for Responses. -/
def Message.method : Message → Option String
  | .Notification _ m _ => some m
  | .Request _ _ m _ => some m
  | .Response _ _ _ _ => none

/-- Whether a message is a `Request`. -/
def Message.isRequest : Message → Bool
  | .Request _ _ _ _ => true
  | _ => false

/-- The `jsonrpc` field carried by a message. -/
def Message.jsonrpcTag : Message → String
  | .Notification j _ _ => j
  | .Request j _ _ _ => j
  | .Response j _ _ _ => j

/-- Serde's deserialization of an `Option<Value>` field value: JSON `null`
becomes `None`, anything else `Some`. -/
def decodeOptValue (v : Json) : Option Json :=
  match v with
  | .null => none
  | v => some v

/-- Serde's untagged deserialization of `Id`: try `Str`, then `Int` (i32,
range-checked by `serde_json`). -/
def decodeId (v : Json) : Option Id :=
  match v with
  | .str s => some (.str s)
  | .num n => if -2147483648 ≤ n ∧ n ≤ 2147483647 then some (.int n) else none
  | _ => none

/-- Field walker for the derived `RpcError` deserializer: processes fields in
order, errors on a duplicate known field or an ill-typed value, skips unknown
fields. -/
def decodeRpcErrorFields : List (String × Json) → Option Int → Option String →
    Option (Option Json) → Option RpcError
  | [], code?, message?, data? =>
      match code?, message? with
      | some c, some m => some ⟨c, m, data?.getD none⟩
      | _, _ => none
  | (k, v) :: rest, code?, message?, data? =>
      if k = "code" then
        match code? with
        | some _ => none
        | none =>
            match v with
            | .num n =>
                if -2147483648 ≤ n ∧ n ≤ 2147483647 then
                  decodeRpcErrorFields rest (some n) message? data?
                else none
            | _ => none
      else if k = "message" then
        match message? with
        | some _ => none
        | none =>
            match v with
            | .str s => decodeRpcErrorFields rest code? (some s) data?
            | _ => none
      else if k = "data" then
        match data? with
        | some _ => none
        | none => decodeRpcErrorFields rest code? message? (some (decodeOptValue v))
      else decodeRpcErrorFields rest code? message? data?

/-- Derived deserializer for `RpcError` (a struct deserializes from a map). -/
def decodeRpcError (v : Json) : Option RpcError :=
  match v with
  | .obj fs => decodeRpcErrorFields fs none none none
  | _ => none

/-- Deserialization of an `Option<RpcError>` field value. -/
def decodeErrValue (v : Json) : Option (Option RpcError) :=
  match v with
  | .null => some none
  | v => (decodeRpcError v).map some

/-- Field walker for the `Notification` variant `{ jsonrpc, method, params }`. -/
def decodeNotifFields : List (String × Json) → Option String → Option String →
    Option (Option Json) → Option Message
  | [], jsonrpc?, method?, params? =>
      match jsonrpc?, method? with
      | some j, some m => some (.Notification j m (params?.getD none))
      | _, _ => none
  | (k, v) :: rest, jsonrpc?, method?, params? =>
      if k = "jsonrpc" then
        match jsonrpc? with
        | some _ => none
        | none =>
            match v with
            | .str s => decodeNotifFields rest (some s) method? params?
            | _ => none
      else if k = "method" then
        match method? with
        | some _ => none
        | none =>
            match v with
            | .str s => decodeNotifFields rest jsonrpc? (some s) params?
            | _ => none
      else if k = "params" then
        match params? with
        | some _ => none
        | none => decodeNotifFields rest jsonrpc? method? (some (decodeOptValue v))
      else decodeNotifFields rest jsonrpc? method? params?

/-- Field walker for the `Request` variant `{ jsonrpc, id, method, params }`. -/
def decodeRequestFields : List (String × Json) → Option String → Option Id →
    Option String → Option (Option Json) → Option Message
  | [], jsonrpc?, id?, method?, params? =>
      match jsonrpc?, id?, method? with
      | some j, some i, some m => some (.Request j i m (params?.getD none))
      | _, _, _ => none
  | (k, v) :: rest, jsonrpc?, id?, method?, params? =>
      if k = "jsonrpc" then
        match jsonrpc? with
        | some _ => none
        | none =>
            match v with
            | .str s => decodeRequestFields rest (some s) id? method? params?
            | _ => none
      else if k = "id" then
        match id? with
        | some _ => none
        | none =>
            match decodeId v with
            | some i => decodeRequestFields rest jsonrpc? (some i) method? params?
            | none => none
      else if k = "method" then
        match method? with
        | some _ => none
        | none =>
            match v with
            | .str s => decodeRequestFields rest jsonrpc? id? (some s) params?
            | _ => none
      else if k = "params" then
        match params? with
        | some _ => none
        | none => decodeRequestFields rest jsonrpc? id? method? (some (decodeOptValue v))
      else decodeRequestFields rest jsonrpc? id? method? params?

/-- Field walker for the `Response` variant `{ jsonrpc, id, result, error }`. -/
def decodeResponseFields : List (String × Json) → Option String → Option Id →
    Option (Option Json) → Option (Option RpcError) → Option Message
  | [], jsonrpc?, id?, result?, error? =>
      match jsonrpc?, id? with
      | some j, some i => some (.Response j i (result?.getD none) (error?.getD none))
      | _, _ => none
  | (k, v) :: rest, jsonrpc?, id?, result?, error? =>
      if k = "jsonrpc" then
        match jsonrpc? with
        | some _ => none
        | none =>
            match v with
            | .str s => decodeResponseFields rest (some s) id? result? error?
            | _ => none
      else if k = "id" then
        match id? with
        | some _ => none
        | none =>
            match decodeId v with
            | some i => decodeResponseFields rest jsonrpc? (some i) result? error?
            | none => none
      else if k = "result" then
        match result? with
        | some _ => none
        | none => decodeResponseFields rest jsonrpc? id? (some (decodeOptValue v)) error?
      else if k = "error" then
        match error? with
        | some _ => none
        | none =>
            match decodeErrValue v with
            | some e => decodeResponseFields rest jsonrpc? id? result? (some e)
            | none => none
      else decodeResponseFields rest jsonrpc? id? result? error?

/-- Serde's untagged deserialization of `Message`: try the variants in
declaration order (`Notification`, `Request`, `Response`) and return the
first that succeeds; unknown fields are ignored by each variant. -/
def decodeMessage (j : Json) : Option Message :=
  match j with
  | .obj fs =>
      (decodeNotifFields fs none none none) <|>
      (decodeRequestFields fs none none none none) <|>
      (decodeResponseFields fs none none none none)
  | _ => none

/-- Serde serialization of an `Id`. -/
def encodeId : Id → Json
  | .str s => .str s
  | .int n => .num n

/-- Serde serialization of an `RpcError`: fields in declaration order, an
absent `data` serialized as `null`. -/
def encodeRpcError (e : RpcError) : Json :=
  .obj [("code", .num e.code), ("message", .str e.message), ("data", e.data.getD .null)]

/-- Serde serialization of a `Message`: fields in declaration order; the
derive has no `skip_serializing_if`, so absent optional fields are emitted
as `null`. -/
def encodeMessage : Message → Json
  | .Notification j m p =>
      .obj [("jsonrpc", .str j), ("method", .str m), ("params", p.getD .null)]
  | .Request j i m p =>
      .obj [("jsonrpc", .str j), ("id", encodeId i), ("method", .str m),
            ("params", p.getD .null)]
  | .Response j i r e =>
      .obj [("jsonrpc", .str j), ("id", encodeId i), ("result", r.getD .null),
            ("error", (e.map encodeRpcError).getD .null)]

/-- Validity of an `Id` as the Rust value it models (`Int` is an `i32`). -/
def Id.wf : Id → Prop
  | .str _ => True
  | .int n => -2147483648 ≤ n ∧ n ≤ 2147483647

instance : DecidablePred Id.wf := fun i =>
  match i with
  | .str _ => isTrue trivial
  | .int _ => instDecidableAnd

/-- Validity of an `RpcError` (its `code` is an `i32`). -/
def RpcError.wf (e : RpcError) : Prop :=
  -2147483648 ≤ e.code ∧ e.code ≤ 2147483647

/-- Validity of a `Message` as the Rust value it models. -/
def Message.wf : Message → Prop
  | .Notification _ _ _ => True
  | .Request _ i _ _ => i.wf
  | .Response _ i _ e =>
      i.wf ∧ (match e with | none => True | some err => err.wf)

/-- Collapse `Some null` to `None`: the residue of encoding an optional field
as `null` and decoding it back. -/
def canonOpt : Option Json → Option Json
  | some .null => none
  | x => x

/-- Canonicalize an `RpcError` up to the absent-vs-null distinction. -/
def canonRpcError (e : RpcError) : RpcError :=
  ⟨e.code, e.message, canonOpt e.data⟩

/-- Canonicalize a `Message` up to the absent-vs-null distinction on its
optional fields. -/
def canonMessage : Message → Message
  | .Notification j m p => .Notification j m (canonOpt p)
  | .Request j i m p => .Request j i m (canonOpt p)
  | .Response j i r e => .Response j i (canonOpt r) (e.map canonRpcError)

end Rpc

/-! ### Payload types (`payloads.rs`, `logging.rs`, `player.rs`) -/

/-- `logging.rs`: `enum LogSeverity { Debug, Info, Warn, Error, Trace }`,
serde-derived (unit variants encode as their name strings). -/
inductive LogSeverity where
  | Debug
  | Info
  | Warn
  | Error
  | Trace
deriving DecidableEq

/-- Serde deserialization of a `LogSeverity` from a JSON value. -/
def decodeLogSeverity : Json → Option LogSeverity
  | .str "Debug" => some .Debug
  | .str "Info" => some .Info
  | .str "Warn" => some .Warn
  | .str "Error" => some .Error
  | .str "Trace" => some .Trace
  | _ => none

/-- `payloads.rs`: `struct LogPayload { severity, content }`. -/
structure LogPayload where
  severity : LogSeverity
  content : String

/-- Field walker for the derived `LogPayload` deserializer. -/
def decodeLogPayloadFields : List (String × Json) → Option LogSeverity →
    Option String → Option LogPayload
  | [], severity?, content? =>
      match severity?, content? with
      | some s, some c => some ⟨s, c⟩
      | _, _ => none
  | (k, v) :: rest, severity?, content? =>
      if k = "severity" then
        match severity? with
        | some _ => none
        | none =>
            match decodeLogSeverity v with
            | some s => decodeLogPayloadFields rest (some s) content?
            | none => none
      else if k = "content" then
        match content? with
        | some _ => none
        | none =>
            match v with
            | .str s => decodeLogPayloadFields rest severity? (some s)
            | _ => none
      else decodeLogPayloadFields rest severity? content?

/-- Derived deserializer for `LogPayload`. -/
def decodeLogPayload (v : Json) : Option LogPayload :=
  match v with
  | .obj fs => decodeLogPayloadFields fs none none
  | _ => none

/-- `payloads.rs`: `struct ChatPayload { user, message }`. -/
structure ChatPayload where
  user : String
  message : String

/-- Serde serialization of a `ChatPayload`, fields in declaration order. -/
def encodeChatPayload (p : ChatPayload) : Json :=
  .obj [("user", .str p.user), ("message", .str p.message)]

/-- `impl From<ChatPayload> for rpc::Message`: a "chat" notification whose
params are the serialized payload. -/
def ChatPayload.toMessage (p : ChatPayload) : Rpc.Message :=
  Rpc.Message.notification "chat" (some (encodeChatPayload p))

/-- `player.rs`: `struct Player { name, uuid }`; the UUID is carried as its
canonical lowercase hyphenated string. -/
structure Player where
  name : String
  uuid : String

/-- Serde serialization of a `Player` (`Uuid` serializes as its hyphenated
string). -/
def encodePlayer (p : Player) : Json :=
  .obj [("name", .str p.name), ("uuid", .str p.uuid)]

/-! ### Regular expressions

Each compiled regex of the source is embedded as a function from a haystack
to the map of its named capture groups (`None` when the regex does not
match).  The patterns involved are deterministic enough that leftmost-match
semantics reduce to the scans below. -/

/-- Match a literal character sequence, returning the rest of the haystack. -/
def stripLit : List Char → List Char → Option (List Char)
  | [], cs => some cs
  | _ :: _, [] => none
  | l :: ls, c :: cs => if c = l then stripLit ls cs else none

/-- One attempt of `LogChat: (?P<user>[^:]+): (?P<message>.*)$` anchored at
the start of the haystack: after the literal, `[^:]+` greedily takes
non-colon characters (shortening it can never help, since the following
literal is a colon), then `: `, then `.*$` takes the rest, which must not
contain a newline. -/
def chatTryAt (cs : List Char) : Option (List (String × String)) :=
  match stripLit "LogChat: ".toList cs with
  | none => none
  | some rest =>
      let user := rest.takeWhile (fun c => c ≠ ':')
      let rest2 := rest.dropWhile (fun c => c ≠ ':')
      if user.isEmpty then none
      else
        match rest2 with
        | ':' :: ' ' :: msg =>
            if msg.contains '\n' then none
            else some [("user", user.asString), ("message", msg.asString)]
        | _ => none

/-- Leftmost-match scan for the chat regex (the pattern is unanchored). -/
def chatScan : List Char → Option (List (String × String))
  | [] => none
  | c :: rest =>
      match chatTryAt (c :: rest) with
      | some r => some r
      | none => chatScan rest

/-- `CHAT_REGEX[0]`: `LogChat: (?P<user>[^:]+): (?P<message>.*)$`. -/
def chatRegexFn (body : String) : Option (List (String × String)) :=
  chatScan body.toList

/-- `JOIN_REGEX[0]`: `^LogServerList: Auth payload valid\. Result:$`
(no capture groups, so a match produces an empty capture map). -/
def joinRegex1Fn (body : String) : Option (List (String × String)) :=
  if body = "LogServerList: Auth payload valid. Result:" then some [] else none

/-- Anchored pattern `^<literal>(?P<name>.+)$`: the literal, then one or
more non-newline characters captured to the end. -/
def joinTailFn (lit : String) (name : String) (body : String) :
    Option (List (String × String)) :=
  match stripLit lit.toList body.toList with
  | none => none
  | some rest =>
      if rest.isEmpty || rest.contains '\n' then none
      else some [(name, rest.asString)]

/-- `JOIN_REGEX[1]`: `^LogServerList: UserName: (?P<user>.+)$`. -/
def joinRegex2Fn (body : String) : Option (List (String × String)) :=
  joinTailFn "LogServerList: UserName: " "user" body

/-- `JOIN_REGEX[2]`: `^LogServerList: UserId: (?P<id>.+)$`. -/
def joinRegex3Fn (body : String) : Option (List (String × String)) :=
  joinTailFn "LogServerList: UserId: " "id" body

/-- `JOIN_REGEX[3]`: `^LogServerList: HandleId: (?P<handle>.+)$`. -/
def joinRegex4Fn (body : String) : Option (List (String × String)) :=
  joinTailFn "LogServerList: HandleId: " "handle" body

/-- `matchers.rs`: `CHAT_REGEX`. -/
def CHAT_REGEX : List (String → Option (List (String × String))) :=
  [chatRegexFn]

/-- `matchers.rs`: `JOIN_REGEX`. -/
def JOIN_REGEX : List (String → Option (List (String × String))) :=
  [joinRegex1Fn, joinRegex2Fn, joinRegex3Fn, joinRegex4Fn]

/-- Character class `[\d\.\-:]` of the log-line regex. -/
def isTsChar (c : Char) : Bool :=
  c.isDigit || c = '.' || c = '-' || c = ':'

/-- Character class `\s` (the ASCII whitespace the log lines can contain). -/
def isWsChar (c : Char) : Bool :=
  c = ' ' || c = '\t' || c = '\n' || c = '\x0b' || c = '\x0c' || c = '\r'

/-- Decimal value of a digit run. -/
def digitsToNat (ds : List Char) : Nat :=
  ds.foldl (fun acc c => 10 * acc + (c.toNat - 48)) 0

/-- `main.rs` `log_matcher`:
`^\[[\d\.\-:]+\]\[\s*(?P<index>\d+)\](?P<body>.+)$` followed by the
`index.parse::<i32>()` of the match arm; yields `(index, body)` or discards
the line.  Every quantified class here excludes its follower, so greedy
scanning is exact. -/
def parseLogLine (line : String) : Option (Int × String) :=
  match line.toList with
  | '[' :: rest =>
      let ts := rest.takeWhile isTsChar
      let rest2 := rest.dropWhile isTsChar
      if ts.isEmpty then none
      else
        match rest2 with
        | ']' :: '[' :: rest3 =>
            let rest4 := rest3.dropWhile isWsChar
            let digits := rest4.takeWhile Char.isDigit
            let rest5 := rest4.dropWhile Char.isDigit
            if digits.isEmpty then none
            else
              match rest5 with
              | ']' :: body =>
                  if body.isEmpty || body.contains '\n' then none
                  else some ((digitsToNat digits : Int), body.asString)
              | _ => none
        | _ => none
  | _ => none

/-- Hexadecimal digit. -/
def isHexChar (c : Char) : Bool :=
  c.isDigit || ('a' ≤ c && c ≤ 'f') || ('A' ≤ c && c ≤ 'F')

/-- Lowercase a hexadecimal digit. -/
def hexToLower (c : Char) : Char :=
  if 'A' ≤ c && c ≤ 'F' then Char.ofNat (c.toNat + 32) else c

/-- Split a character list into the groups separated by hyphens. -/
def splitOnDash : List Char → List (List Char)
  | [] => [[]]
  | '-' :: rest => [] :: splitOnDash rest
  | c :: rest =>
      match splitOnDash rest with
      | [] => [[c]]
      | g :: gs => (c :: g) :: gs

/-- `Uuid::parse_str` followed by the hyphenated serde serialization:
accepts the hyphenated (8-4-4-4-12) and simple (32 hex digits) forms,
case-insensitively, and yields the canonical lowercase hyphenated string.
(The crate's braced and URN forms are not exercised by any claim.) -/
def parseUuid (s : String) : Option String :=
  match splitOnDash s.toList with
  | [a, b, c, d, e] =>
      if (a.length = 8 ∧ b.length = 4 ∧ c.length = 4 ∧ d.length = 4 ∧ e.length = 12)
          ∧ (a.all isHexChar ∧ b.all isHexChar ∧ c.all isHexChar
              ∧ d.all isHexChar ∧ e.all isHexChar) then
        some ((a.map hexToLower).asString ++ "-" ++ (b.map hexToLower).asString ++ "-" ++
              (c.map hexToLower).asString ++ "-" ++ (d.map hexToLower).asString ++ "-" ++
              (e.map hexToLower).asString)
      else none
  | [a] =>
      if a.length = 32 ∧ a.all isHexChar then
        let l := a.map hexToLower
        some ((l.take 8).asString ++ "-" ++ ((l.drop 8).take 4).asString ++ "-" ++
              ((l.drop 12).take 4).asString ++ "-" ++ ((l.drop 16).take 4).asString ++
              "-" ++ (l.drop 20).asString)
      else none
  | _ => none

/-! ### Match engine (`matchers.rs` types and `main.rs` lines 216-331) -/

/-- `matchers.rs`: `RegexCaptures`, a list of named-group capture maps
indexed by regex position. -/
structure RegexCaptures where
  vec : List (List (String × String))

/-- `RegexCaptures::at`: the capture of group `key` for regex `ind`. -/
def RegexCaptures.atKey (c : RegexCaptures) (ind : Nat) (key : String) : Option String :=
  match c.vec.get? ind with
  | some map => (map.find? (fun kv => kv.1 = key)).map (fun kv => kv.2)
  | none => none

/-- A message sent by a completion handler: built-in matchers send an
`rpc::Message` on the event bus; a `PluginRegexMatcher` sends the captures
back on its own channel. -/
inductive BusMessage where
  | rpc (message : Rpc.Message)
  | captures (c : RegexCaptures)

/-- `matchers.rs`: the `GroupedRegexMatcher` trait, as a record of its two
methods.  `complete` takes the parts of the instance the source handlers
read (its `index` and its `captures`) and yields the messages its side
effects send. -/
structure GroupedRegexMatcher where
  regexes : List (String → Option (List (String × String)))
  complete : Option Int → RegexCaptures → List BusMessage

/-- `matchers.rs`: `GroupedRegexMatches`, an in-progress grouped match. -/
structure GroupedRegexMatches where
  index : Option Int
  matcher : GroupedRegexMatcher
  captures : RegexCaptures
  last : Nat
  timeout : Nat

/-- `ChatRegexMatcher::complete`: reads `user` and `message` from the sole
capture map and sends the `ChatPayload` notification on the bus.  (The
source `unwrap`s both lookups; they cannot fail for a map produced by
`CHAT_REGEX`, and the impossible branch yields no message.) -/
def ChatRegexMatcher : GroupedRegexMatcher where
  regexes := CHAT_REGEX
  complete := fun _ caps =>
    match caps.atKey 0 "user", caps.atKey 0 "message" with
    | some u, some m => [.rpc (ChatPayload.toMessage ⟨u, m⟩)]
    | _, _ => []

/-- `ConnectRegexMatcher::complete`: reads `user` from capture 1 and `id`
from capture 2, parses the id as a UUID and sends the `connect`
notification carrying the serialized `Player`.  (A failed lookup or UUID
parse panics the handler in the source, so no event is emitted; the model
likewise emits nothing on that branch.) -/
def ConnectRegexMatcher : GroupedRegexMatcher where
  regexes := JOIN_REGEX
  complete := fun _ caps =>
    match caps.atKey 1 "user", (caps.atKey 2 "id").bind parseUuid with
    | some name, some uuid =>
        [.rpc (Rpc.Message.notification "connect" (some (encodePlayer ⟨name, uuid⟩)))]
    | _, _ => []

/-- `main.rs` line 209: the registered matchers, chat first. -/
def grouped_regex_matchers : List GroupedRegexMatcher :=
  [ChatRegexMatcher, ConnectRegexMatcher]

/-- A record of one completion-handler invocation: the captures of the
completing instance, the full active-instance list at the moment
`complete` is called, and the messages the handler sends. -/
structure HandlerCall where
  completedCaptures : RegexCaptures
  activeAtCall : List GroupedRegexMatches
  emitted : List BusMessage

/-- Result of the advance loop (`main.rs` lines 233-275): the instance list
as left by the loop, the value of `i` if the loop broke early (the position
of the completing instance), and the handler invocations performed. -/
structure AdvanceResult where
  instances : List GroupedRegexMatches
  breakAt : Option Nat
  calls : List HandlerCall

/-- The advance loop of `main.rs` lines 233-275, one iteration per active
instance, `acc` holding the already-visited part of the vector.  For each
instance whose index constraint holds and whose next-expected regex matches
the body, the capture map is appended and `last` is refreshed; if the
captures now reach the regex count the handler runs (with the instance
still in the vector) and the loop breaks with `i` at the instance's
position.  An advance that does not complete does NOT break the loop. -/
def advanceGo (now : Nat) (index : Int) (body : String)
    (acc : List GroupedRegexMatches) :
    List GroupedRegexMatches → AdvanceResult
  | [] => ⟨acc, none, []⟩
  | inst :: rest =>
      let indexMatches :=
        match inst.index with
        | some n => index == n
        | none => true
      if indexMatches then
        match inst.matcher.regexes.get? inst.captures.vec.length with
        | none =>
            -- `regexes[captures.len()]` is in range for every instance the
            -- program builds; the source would panic otherwise.
            advanceGo now index body (acc ++ [inst]) rest
        | some nextRegex =>
            match nextRegex body with
            | some map =>
                let inst2 : GroupedRegexMatches :=
                  { inst with last := now, captures := ⟨inst.captures.vec ++ [map]⟩ }
                if inst2.matcher.regexes.length ≤ inst2.captures.vec.length then
                  ⟨acc ++ inst2 :: rest, some acc.length,
                    [⟨inst2.captures, acc ++ inst2 :: rest,
                      inst2.matcher.complete inst2.index inst2.captures⟩]⟩
                else
                  advanceGo now index body (acc ++ [inst2]) rest
            | none => advanceGo now index body (acc ++ [inst]) rest
      else advanceGo now index body (acc ++ [inst]) rest

/-- The seeding loop of `main.rs` lines 284-314: for each registered matcher
whose first regex matches the body, build a fresh instance at the current
index with a 1-second timeout; a single-regex matcher completes immediately
(its instance is never added) and BREAKS out of the seeding loop, otherwise
the instance is appended. -/
def seedGo (now : Nat) (index : Int) (body : String)
    (insts : List GroupedRegexMatches) :
    List GroupedRegexMatcher → List GroupedRegexMatches × List HandlerCall
  | [] => (insts, [])
  | m :: rest =>
      match m.regexes.get? 0 with
      | none => seedGo now index body insts rest
      | some firstRegex =>
          match firstRegex body with
          | some map =>
              let inst : GroupedRegexMatches :=
                { index := some index, matcher := m, captures := ⟨[map]⟩,
                  last := now, timeout := 1000 }
              if m.regexes.length = 1 then
                (insts, [⟨inst.captures, insts, m.complete inst.index inst.captures⟩])
              else
                seedGo now index body (insts ++ [inst]) rest
          | none => seedGo now index body insts rest

/-- The state left by processing one log record, plus the handler calls. -/
structure EngineStep where
  instances : List GroupedRegexMatches
  trace : List HandlerCall

/-- Processing of one `(index, body)` record by the `main` loop
(lines 233-317): run the advance loop; if it broke, remove the instance at
the break position and `continue` (seeding and garbage collection are
skipped); otherwise run the seeding loop and then the `retain` of line 317,
which keeps exactly the instances with `last + timeout < now` — the
predicate as written in the source. -/
def processRecord (matchers : List GroupedRegexMatcher) (now : Nat)
    (index : Int) (body : String)
    (insts : List GroupedRegexMatches) : EngineStep :=
  let adv := advanceGo now index body [] insts
  match adv.breakAt with
  | some i => ⟨adv.instances.eraseIdx i, adv.calls⟩
  | none =>
      let seeded := seedGo now index body adv.instances matchers
      ⟨seeded.1.filter (fun inst => decide (inst.last + inst.timeout < now)),
        adv.calls ++ seeded.2⟩

/-- Modelled from the spec: the garbage-collection step as specified
("Remove instances where `now > last_progress + timeout`"), i.e. keep
exactly the instances with `now ≤ last + timeout`.  The source's `retain`
predicate is the opposite; this variant exists to compare the two. -/
def processRecordSpecGC (matchers : List GroupedRegexMatcher) (now : Nat)
    (index : Int) (body : String)
    (insts : List GroupedRegexMatches) : EngineStep :=
  let adv := advanceGo now index body [] insts
  match adv.breakAt with
  | some i => ⟨adv.instances.eraseIdx i, adv.calls⟩
  | none =>
      let seeded := seedGo now index body adv.instances matchers
      ⟨seeded.1.filter (fun inst => decide (now ≤ inst.last + inst.timeout)),
        adv.calls ++ seeded.2⟩

/-- Fold `processRecord` over a sequence of timestamped records,
accumulating the handler calls. -/
def processLog (matchers : List GroupedRegexMatcher) :
    List (Nat × Int × String) → List GroupedRegexMatches →
    List GroupedRegexMatches × List HandlerCall
  | [], insts => (insts, [])
  | (now, index, body) :: rest, insts =>
      let step := processRecord matchers now index body insts
      let tail := processLog matchers rest step.instances
      (tail.1, step.trace ++ tail.2)

/-- Fold of the spec-GC variant over a sequence of records. -/
def processLogSpecGC (matchers : List GroupedRegexMatcher) :
    List (Nat × Int × String) → List GroupedRegexMatches →
    List GroupedRegexMatches × List HandlerCall
  | [], insts => (insts, [])
  | (now, index, body) :: rest, insts =>
      let step := processRecordSpecGC matchers now index body insts
      let tail := processLogSpecGC matchers rest step.instances
      (tail.1, step.trace ++ tail.2)

/-- All messages emitted by a trace of handler calls, in order. -/
def emittedOf (calls : List HandlerCall) : List BusMessage :=
  (calls.map (fun c => c.emitted)).flatten

/-- The fan-out branch of the `main` select (lines 319-325): a message
received from the plugin-rpc channel is serialized once and pushed onto
every plugin instance's stdin channel. -/
def fanOutRpc (m : Rpc.Message) (queues : List (List String)) : List (List String) :=
  queues.map (fun q => q ++ [serializeJson (Rpc.encodeMessage m)])

/-- The per-plugin stdin pump (`plugins.rs` lines 76-84): each queued string
is written to the child's stdin followed by a newline, in order. -/
def pumpOutput : List String → String
  | [] => ""
  | x :: rest => x ++ "\n" ++ pumpOutput rest

/-! ### JSON text parsing (`serde_json::from_str`, as used by the plugin
stdout router).  Recursion is fueled; `parseJson` supplies ample fuel. -/

/-- Skip JSON whitespace. -/
def skipWs : List Char → List Char
  | c :: rest =>
      if c = ' ' || c = '\t' || c = '\n' || c = '\r' then skipWs rest else c :: rest
  | [] => []

/-- Value of a hexadecimal digit. -/
def hexVal (c : Char) : Option Nat :=
  if c.isDigit then some (c.toNat - 48)
  else if 'a' ≤ c && c ≤ 'f' then some (c.toNat - 87)
  else if 'A' ≤ c && c ≤ 'F' then some (c.toNat - 55)
  else none

/-- Parse the body of a JSON string after the opening quote, handling the
JSON escapes.  (Surrogate pairs are not modelled; no claim involves them.) -/
def parseStringBody : List Char → List Char → Option (String × List Char)
  | _, [] => none
  | acc, '"' :: rest => some (acc.reverse.asString, rest)
  | acc, '\\' :: e :: rest =>
      (match e with
       | '"' => parseStringBody ('"' :: acc) rest
       | '\\' => parseStringBody ('\\' :: acc) rest
       | '/' => parseStringBody ('/' :: acc) rest
       | 'b' => parseStringBody ('\x08' :: acc) rest
       | 'f' => parseStringBody ('\x0c' :: acc) rest
       | 'n' => parseStringBody ('\n' :: acc) rest
       | 'r' => parseStringBody ('\r' :: acc) rest
       | 't' => parseStringBody ('\t' :: acc) rest
       | 'u' =>
           (match rest with
            | h1 :: h2 :: h3 :: h4 :: rest2 =>
                (match hexVal h1, hexVal h2, hexVal h3, hexVal h4 with
                 | some a, some b, some c, some d =>
                     let n := ((a * 16 + b) * 16 + c) * 16 + d
                     if 0xD800 ≤ n ∧ n ≤ 0xDFFF then none
                     else parseStringBody (Char.ofNat n :: acc) rest2
                 | _, _, _, _ => none)
            | _ => none)
       | _ => none)
  | acc, c :: rest =>
      if c.toNat < 0x20 then none else parseStringBody (c :: acc) rest

/-- After an integer literal, JSON fraction or exponent syntax would make a
float, which this model does not represent: treat it as unparseable (the
router's behavior on such a line is the same either way: the message is
dropped). -/
def checkNoFrac (n : Nat) (rest : List Char) : Option (Nat × List Char) :=
  match rest with
  | '.' :: _ => none
  | 'e' :: _ => none
  | 'E' :: _ => none
  | _ => some (n, rest)

/-- Parse a JSON natural-number literal (the part after an optional minus). -/
def parseNumberTail (cs : List Char) : Option (Nat × List Char) :=
  match cs with
  | '0' :: rest => checkNoFrac 0 rest
  | c :: _ =>
      if c.isDigit then
        checkNoFrac (digitsToNat (cs.takeWhile Char.isDigit)) (cs.dropWhile Char.isDigit)
      else none
  | [] => none

mutual

/-- Parse one JSON value. -/
def parseValueF : Nat → List Char → Option (Json × List Char)
  | 0, _ => none
  | fuel + 1, cs =>
      match skipWs cs with
      | 'n' :: 'u' :: 'l' :: 'l' :: rest => some (.null, rest)
      | 't' :: 'r' :: 'u' :: 'e' :: rest => some (.bool true, rest)
      | 'f' :: 'a' :: 'l' :: 's' :: 'e' :: rest => some (.bool false, rest)
      | '"' :: rest =>
          (match parseStringBody [] rest with
           | some (s, r) => some (.str s, r)
           | none => none)
      | '-' :: rest =>
          (match parseNumberTail rest with
           | some (n, r) => some (.num (-(n : Int)), r)
           | none => none)
      | '[' :: rest =>
          (match skipWs rest with
           | ']' :: rest2 => some (.arr [], rest2)
           | cs2 =>
               match parseValueF fuel cs2 with
               | some (v, r) => parseArrTailF fuel [v] r
               | none => none)
      | '\x7b' :: rest =>
          (match skipWs rest with
           | '\x7d' :: rest2 => some (.obj [], rest2)
           | cs2 =>
               match parseMemberF fuel cs2 with
               | some (kv, r) => parseObjTailF fuel [kv] r
               | none => none)
      | c :: rest =>
          if c.isDigit then
            match parseNumberTail (c :: rest) with
            | some (n, r) => some (.num (n : Int), r)
            | none => none
          else none
      | [] => none

/-- Parse one `"key": value` object member. -/
def parseMemberF : Nat → List Char → Option ((String × Json) × List Char)
  | 0, _ => none
  | fuel + 1, cs =>
      match skipWs cs with
      | '"' :: rest =>
          (match parseStringBody [] rest with
           | some (k, r) =>
               (match skipWs r with
                | ':' :: r2 =>
                    (match parseValueF fuel r2 with
                     | some (v, r3) => some ((k, v), r3)
                     | none => none)
                | _ => none)
           | none => none)
      | _ => none

/-- Parse the rest of an array after its first element. -/
def parseArrTailF : Nat → List Json → List Char → Option (Json × List Char)
  | 0, _, _ => none
  | fuel + 1, acc, cs =>
      match skipWs cs with
      | ',' :: rest =>
          (match parseValueF fuel rest with
           | some (v, r) => parseArrTailF fuel (acc ++ [v]) r
           | none => none)
      | ']' :: rest => some (.arr acc, rest)
      | _ => none

/-- Parse the rest of an object after its first member.  Duplicate keys are
kept in order, as the serde untagged buffering does. -/
def parseObjTailF : Nat → List (String × Json) → List Char → Option (Json × List Char)
  | 0, _, _ => none
  | fuel + 1, acc, cs =>
      match skipWs cs with
      | ',' :: rest =>
          (match parseMemberF fuel rest with
           | some (kv, r) => parseObjTailF fuel (acc ++ [kv]) r
           | none => none)
      | '\x7d' :: rest => some (.obj acc, rest)
      | _ => none

end

/-- `serde_json::from_str`: parse one value and require only whitespace
after it. -/
def parseJson (s : String) : Option Json :=
  match parseValueF (s.length + 1) s.toList with
  | some (v, rest) => if (skipWs rest).isEmpty then some v else none
  | none => none

/-! ### Plugin stdout router (`plugins.rs` lines 122-175) -/

/-- An observable side effect of routing one plugin stdout line. -/
inductive RouterEffect where
  | gameStdin (line : String)
  | logMsg (severity : LogSeverity) (pluginName : String) (content : String)

/-- Outcome of routing one plugin stdout line: `dropped` is the silent
`continue` taken when `serde_json::from_str::<rpc::Message>` fails
(malformed JSON or no matching shape); `handled` carries the effects of a
dispatched message; `panicked` is an `unwrap` failure that kills the
stdout-router task. -/
inductive RouterOutcome where
  | dropped
  | handled (effects : List RouterEffect)
  | panicked

/-- The stdout router's handling of one line (`plugins.rs` lines 124-174):
decode the line as an RPC message (failure: silent `continue`), then
dispatch on `method()`.  `log` converts the payload with
`try_into().unwrap()` — a missing or undecodable payload panics the task;
`broadcast`/`writeln` act only on a Notification whose params are a JSON
string; all other methods are ignored. -/
def routeLine (pluginName : String) (line : String) : RouterOutcome :=
  match parseJson line with
  | none => .dropped
  | some j =>
      match Rpc.decodeMessage j with
      | none => .dropped
      | some m =>
          match m.method with
          | some "log" =>
              (match m with
               | .Notification _ _ params =>
                   (match params with
                    | none => .panicked
                    | some v =>
                        match decodeLogPayload v with
                        | some p => .handled [.logMsg p.severity pluginName p.content]
                        | none => .panicked)
               | _ => .panicked)
          | some "broadcast" =>
              (match m with
               | .Notification _ _ (some (.str s)) =>
                   .handled [.gameStdin ("Chat.Broadcast " ++ s)]
               | _ => .handled [])
          | some "writeln" =>
              (match m with
               | .Notification _ _ (some (.str s)) => .handled [.gameStdin s]
               | _ => .handled [])
          | _ => .handled []

/-! ### Helper definitions for claim statements -/

/-- An optional JSON field: absent, or present with the given value. -/
def optField (k : String) : Option Json → List (String × Json)
  | none => []
  | some v => [(k, v)]

/-- Well-formedness of an optional `RpcError`. -/
def Rpc.errWf : Option Rpc.RpcError → Prop
  | none => True
  | some e => e.wf

/-- A partially-progressed Connect instance (one capture taken), used as a
concrete engine state below. -/
def connInstAt (last timeout : Nat) : GroupedRegexMatches :=
  { index := some 42, matcher := ConnectRegexMatcher, captures := ⟨[[]]⟩,
    last := last, timeout := timeout }

/-- A fresh chat-matcher instance with no captures yet, as the plugin
matcher channel inserts instances (`plugins.rs` `match_regex`). -/
def chatSeedInst : GroupedRegexMatches :=
  { index := none, matcher := ChatRegexMatcher, captures := ⟨[]⟩,
    last := 0, timeout := 1000 }

/-- The chat notification for user "alice", message "hello world". -/
def chatAliceMsg : Rpc.Message :=
  ChatPayload.toMessage ⟨"alice", "hello world"⟩

/-- The serialized form of `chatAliceMsg` expected by the spec scenario. -/
def chatAliceLine : String :=
  "\x7b\"jsonrpc\":\"2.0\",\"method\":\"chat\",\"params\":\x7b\"user\":\"alice\",\"message\":\"hello world\"\x7d\x7d"

/-- The four connect log records of the spec scenario, all at emitter index
42, spaced well inside the 1-second timeout. -/
def joinRecords : List (Nat × Int × String) :=
  [(0, 42, "LogServerList: Auth payload valid. Result:"),
   (10, 42, "LogServerList: UserName: Bob"),
   (20, 42, "LogServerList: UserId: 12345678-1234-5678-1234-567812345678"),
   (30, 42, "LogServerList: HandleId: X")]

/-- The connect notification the spec expects from `joinRecords`. -/
def connectBobMsg : Rpc.Message :=
  Rpc.Message.notification "connect"
    (some (encodePlayer ⟨"Bob", "12345678-1234-5678-1234-567812345678"⟩))

/-- A plugin line whose `log` params fail to decode as a `LogPayload`. -/
def badLogLine : String :=
  "\x7b\"jsonrpc\":\"2.0\",\"method\":\"log\",\"params\":5\x7d"

/-! ### Claims about the RPC codec -/

/-- C2 counterexample: the JSON object with both `method` and `id` present
(`jsonrpc:"2.0", id:1, method:"m"`) does NOT decode as a Request — the
untagged decoder tries `Notification` first and ignores the unknown `id`
field, so it decodes as a Notification. -/
theorem c2_counterexample :
    Rpc.decodeMessage (.obj [("jsonrpc", .str "2.0"), ("id", .num 1), ("method", .str "m")])
      = some (Rpc.Message.Notification "2.0" "m" none) ∧
    (Rpc.Message.Notification "2.0" "m" none).isRequest = false :=
  ⟨rfl, rfl⟩

/-- Decoding an optional-value field present with value `v` gives the same
result as canonicalizing `some v`. -/
theorem Rpc.decodeOptValue_canon (v : Json) :
    Rpc.decodeOptValue v = Rpc.canonOpt (some v) := by
  cases v <;> rfl

/-- Canonicalizing an absent optional value is the identity. -/
theorem Rpc.canonOpt_none : Rpc.canonOpt none = none := rfl

/-- Canonicalizing a present `null` gives an absent value. -/
theorem Rpc.canonOpt_some_null : Rpc.canonOpt (some Json.null) = none := rfl

/-- A request-shaped object (`jsonrpc`, `id`, `method`, optional `params`)
decodes as a Notification: the untagged decoder tries `Notification` first
and skips the unknown `id` field. -/
theorem reqShapeDecode (s m : String) (i : Rpc.Id) (p : Option Json) :
    Rpc.decodeMessage (.obj ([("jsonrpc", .str s), ("id", Rpc.encodeId i),
        ("method", .str m)] ++ optField "params" p))
      = some (.Notification s m (p.bind Rpc.decodeOptValue)) := by
  cases i <;> cases p <;> rfl

/-- A response-shaped object (`jsonrpc`, a well-formed `id`, optional
`result`, optional well-formed `error`) decodes as a Response. -/
theorem respShapeDecode (s : String) (i : Rpc.Id) (r : Option Json)
    (e : Option Rpc.RpcError) (hi : i.wf) (he : Rpc.errWf e) :
    Rpc.decodeMessage (.obj ([("jsonrpc", .str s), ("id", Rpc.encodeId i)] ++
        optField "result" r ++ optField "error" (e.map Rpc.encodeRpcError)))
      = some (.Response s i (r.bind Rpc.decodeOptValue) (e.map Rpc.canonRpcError)) := by
  cases i with
  | str sid =>
      cases r <;> cases e with
      | none => rfl
      | some err =>
          rcases err with ⟨c, msg, d⟩
          rcases he with ⟨h1, h2⟩
          cases d <;>
            simp +decide [Rpc.decodeMessage, Rpc.decodeNotifFields, Rpc.decodeRequestFields,
              Rpc.decodeResponseFields, Rpc.decodeErrValue, Rpc.decodeRpcError,
              Rpc.decodeRpcErrorFields, Rpc.encodeRpcError, Rpc.canonRpcError, Rpc.encodeId,
              Rpc.decodeId, optField, Rpc.decodeOptValue_canon, Rpc.canonOpt_none,
              Rpc.canonOpt_some_null, h1, h2, Rpc.RpcError.wf]
  | int n =>
      rcases hi with ⟨hn1, hn2⟩
      cases r <;> cases e with
      | none =>
          simp +decide [Rpc.decodeMessage, Rpc.decodeNotifFields, Rpc.decodeRequestFields,
            Rpc.decodeResponseFields, Rpc.encodeId, Rpc.decodeId, optField,
            Rpc.decodeOptValue_canon, Rpc.canonOpt_none, Rpc.canonOpt_some_null, hn1, hn2]
      | some err =>
          rcases err with ⟨c, msg, d⟩
          rcases he with ⟨h1, h2⟩
          cases d <;>
            simp +decide [Rpc.decodeMessage, Rpc.decodeNotifFields, Rpc.decodeRequestFields,
              Rpc.decodeResponseFields, Rpc.decodeErrValue, Rpc.decodeRpcError,
              Rpc.decodeRpcErrorFields, Rpc.encodeRpcError, Rpc.canonRpcError, Rpc.encodeId,
              Rpc.decodeId, optField, Rpc.decodeOptValue_canon, Rpc.canonOpt_none,
              Rpc.canonOpt_some_null, h1, h2, hn1, hn2, Rpc.RpcError.wf]

/-- C2 (amended): on decode, an object with `method` present (a string,
with a string `jsonrpc`) decodes as a Notification even when `id` is also
present — decoding never yields a Request from such an object; an object
with `id` present and `method` absent decodes as a Response.  Unknown
fields are ignored. -/
theorem c2_amended :
    (∀ (s m : String) (i : Rpc.Id) (p : Option Json),
      Rpc.decodeMessage (.obj ([("jsonrpc", .str s), ("id", Rpc.encodeId i),
          ("method", .str m)] ++ optField "params" p))
        = some (.Notification s m (p.bind Rpc.decodeOptValue))) ∧
    (∀ (s : String) (i : Rpc.Id) (r : Option Json) (e : Option Rpc.RpcError),
      i.wf → Rpc.errWf e →
      Rpc.decodeMessage (.obj ([("jsonrpc", .str s), ("id", Rpc.encodeId i)] ++
          optField "result" r ++ optField "error" (e.map Rpc.encodeRpcError)))
        = some (.Response s i (r.bind Rpc.decodeOptValue) (e.map Rpc.canonRpcError))) :=
  ⟨reqShapeDecode, respShapeDecode⟩

/-- C2 amended, witness: a concrete request-shaped object decodes as a
Notification and a concrete response-shaped object decodes as a Response. -/
theorem c2_amended_witness :
    Rpc.decodeMessage (.obj ([("jsonrpc", .str "2.0"), ("id", Rpc.encodeId (.int 1)),
        ("method", .str "m")] ++ optField "params" none))
      = some (.Notification "2.0" "m" (Option.bind none Rpc.decodeOptValue)) ∧
    Rpc.decodeMessage (.obj ([("jsonrpc", .str "2.0"), ("id", Rpc.encodeId (.int 1))] ++
        optField "result" none ++ optField "error" (Option.map Rpc.encodeRpcError none)))
      = some (.Response "2.0" (.int 1) (Option.bind none Rpc.decodeOptValue)
          (Option.map Rpc.canonRpcError none)) :=
  ⟨c2_amended.1 "2.0" "m" (.int 1) none,
   c2_amended.2 "2.0" (.int 1) none none (by constructor <;> decide) trivial⟩

/-- C3 counterexample: encoding the valid Request `{id:1, method:"m"}` and
decoding the result yields a Notification, not the Request — the `id` is
lost, so the round-trip fails for Requests even modulo field order and
absent-vs-null. -/
theorem c3_counterexample :
    Rpc.decodeMessage (Rpc.encodeMessage (Rpc.Message.request (.int 1) "m" none))
      = some (Rpc.Message.Notification "2.0" "m" none) ∧
    (Rpc.Message.Notification "2.0" "m" none).isRequest = false ∧
    (Rpc.Message.request (.int 1) "m" none).isRequest = true :=
  ⟨rfl, rfl, rfl⟩

/-- C3 (amended): for every valid Notification and every valid Response
`m`, decoding the result of encoding `m` yields `m` again up to the
absent-vs-null distinction on the optional fields (absent and `null`
params/result/error-data coincide after a round-trip); for Requests the
round-trip instead yields a Notification. -/
theorem c3_amended (m : Rpc.Message) (hnr : m.isRequest = false) (hwf : m.wf) :
    Rpc.decodeMessage (Rpc.encodeMessage m) = some (Rpc.canonMessage m) := by
  cases m with
  | Notification j mth p =>
      cases p with
      | none => rfl
      | some v => cases v <;> rfl
  | Request j i mth p => simp [Rpc.Message.isRequest] at hnr
  | Response j i r e =>
      rcases hwf with ⟨hi, he⟩
      cases i with
      | str sid =>
          cases r with
          | none =>
              cases e with
              | none => rfl
              | some err =>
                  rcases err with ⟨c, msg, d⟩
                  rcases he with ⟨h1, h2⟩
                  cases d <;>
                    simp +decide [Rpc.decodeMessage, Rpc.encodeMessage, Rpc.decodeNotifFields,
                      Rpc.decodeRequestFields, Rpc.decodeResponseFields, Rpc.decodeErrValue,
                      Rpc.decodeRpcError, Rpc.decodeRpcErrorFields, Rpc.encodeRpcError,
                      Rpc.canonMessage, Rpc.canonRpcError, Rpc.encodeId, Rpc.decodeId,
                      Rpc.decodeOptValue_canon, Rpc.canonOpt_none, Rpc.canonOpt_some_null, h1, h2]
          | some v =>
              cases e with
              | none =>
                  cases v <;>
                    simp +decide [Rpc.decodeMessage, Rpc.encodeMessage, Rpc.decodeNotifFields,
                      Rpc.decodeRequestFields, Rpc.decodeResponseFields, Rpc.decodeErrValue,
                      Rpc.canonMessage, Rpc.encodeId, Rpc.decodeId,
                      Rpc.decodeOptValue_canon, Rpc.canonOpt_none, Rpc.canonOpt_some_null]
              | some err =>
                  rcases err with ⟨c, msg, d⟩
                  rcases he with ⟨h1, h2⟩
                  cases v <;> cases d <;>
                    simp +decide [Rpc.decodeMessage, Rpc.encodeMessage, Rpc.decodeNotifFields,
                      Rpc.decodeRequestFields, Rpc.decodeResponseFields, Rpc.decodeErrValue,
                      Rpc.decodeRpcError, Rpc.decodeRpcErrorFields, Rpc.encodeRpcError,
                      Rpc.canonMessage, Rpc.canonRpcError, Rpc.encodeId, Rpc.decodeId,
                      Rpc.decodeOptValue_canon, Rpc.canonOpt_none, Rpc.canonOpt_some_null, h1, h2]
      | int n =>
          rcases hi with ⟨hn1, hn2⟩
          cases r with
          | none =>
              cases e with
              | none =>
                  simp +decide [Rpc.decodeMessage, Rpc.encodeMessage, Rpc.decodeNotifFields,
                    Rpc.decodeRequestFields, Rpc.decodeResponseFields, Rpc.decodeErrValue,
                    Rpc.canonMessage, Rpc.encodeId, Rpc.decodeId, Rpc.decodeOptValue_canon,
                    Rpc.canonOpt_none, Rpc.canonOpt_some_null, hn1, hn2]
              | some err =>
                  rcases err with ⟨c, msg, d⟩
                  rcases he with ⟨h1, h2⟩
                  cases d <;>
                    simp +decide [Rpc.decodeMessage, Rpc.encodeMessage, Rpc.decodeNotifFields,
                      Rpc.decodeRequestFields, Rpc.decodeResponseFields, Rpc.decodeErrValue,
                      Rpc.decodeRpcError, Rpc.decodeRpcErrorFields, Rpc.encodeRpcError,
                      Rpc.canonMessage, Rpc.canonRpcError, Rpc.encodeId, Rpc.decodeId,
                      Rpc.decodeOptValue_canon, Rpc.canonOpt_none, Rpc.canonOpt_some_null,
                      h1, h2, hn1, hn2]
          | some v =>
              cases e with
              | none =>
                  cases v <;>
                    simp +decide [Rpc.decodeMessage, Rpc.encodeMessage, Rpc.decodeNotifFields,
                      Rpc.decodeRequestFields, Rpc.decodeResponseFields, Rpc.decodeErrValue,
                      Rpc.canonMessage, Rpc.encodeId, Rpc.decodeId,
                      Rpc.decodeOptValue_canon, Rpc.canonOpt_none, Rpc.canonOpt_some_null,
                      hn1, hn2]
              | some err =>
                  rcases err with ⟨c, msg, d⟩
                  rcases he with ⟨h1, h2⟩
                  cases v <;> cases d <;>
                    simp +decide [Rpc.decodeMessage, Rpc.encodeMessage, Rpc.decodeNotifFields,
                      Rpc.decodeRequestFields, Rpc.decodeResponseFields, Rpc.decodeErrValue,
                      Rpc.decodeRpcError, Rpc.decodeRpcErrorFields, Rpc.encodeRpcError,
                      Rpc.canonMessage, Rpc.canonRpcError, Rpc.encodeId, Rpc.decodeId,
                      Rpc.decodeOptValue_canon, Rpc.canonOpt_none, Rpc.canonOpt_some_null,
                      h1, h2, hn1, hn2]

/-- C3 amended, witness: the round-trip at a concrete Response carrying an
error object. -/
theorem c3_amended_witness :
    Rpc.decodeMessage (Rpc.encodeMessage (Rpc.Message.response (.int 7) none
        (some ⟨3, "bad", none⟩)))
      = some (Rpc.canonMessage (Rpc.Message.response (.int 7) none (some ⟨3, "bad", none⟩))) :=
  c3_amended (Rpc.Message.response (.int 7) none (some ⟨3, "bad", none⟩)) rfl
    ⟨⟨by decide, by decide⟩, ⟨by decide, by decide⟩⟩

/-- C9 counterexample: the encoded form of a params-less Notification does
NOT omit `params` — the field is present with value `null`. -/
theorem c9_counterexample :
    Json.lookupField (Rpc.encodeMessage (Rpc.Message.notification "m" none)) "params"
      = some Json.null ∧
    Json.objKeys (Rpc.encodeMessage (Rpc.Message.notification "m" none))
      = ["jsonrpc", "method", "params"] :=
  ⟨rfl, rfl⟩

/-- C9 (amended): the encoder always emits every declared field; an absent
optional field (params of a Notification or Request, result or error of a
Response) is serialized as an explicit `null` rather than omitted. -/
theorem c9_amended (j mth : String) (i : Rpc.Id) :
    Json.lookupField (Rpc.encodeMessage (.Notification j mth none)) "params"
      = some Json.null ∧
    Json.lookupField (Rpc.encodeMessage (.Request j i mth none)) "params"
      = some Json.null ∧
    Json.lookupField (Rpc.encodeMessage (.Response j i none none)) "result"
      = some Json.null ∧
    Json.lookupField (Rpc.encodeMessage (.Response j i none none)) "error"
      = some Json.null ∧
    Json.objKeys (Rpc.encodeMessage (.Notification j mth none))
      = ["jsonrpc", "method", "params"] ∧
    Json.objKeys (Rpc.encodeMessage (.Request j i mth none))
      = ["jsonrpc", "id", "method", "params"] ∧
    Json.objKeys (Rpc.encodeMessage (.Response j i none none))
      = ["jsonrpc", "id", "result", "error"] :=
  ⟨rfl, rfl, rfl, rfl, rfl, rfl, rfl⟩

/-- C10: decoding never validates the `jsonrpc` field — for every object of
one of the three shapes, decoding succeeds whatever string the `jsonrpc`
field holds, and the decoded message carries that string unchanged. -/
theorem c10_jsonrpc_not_validated :
    (∀ (s mth : String) (p : Option Json),
      (Rpc.decodeMessage (.obj ([("jsonrpc", .str s), ("method", .str mth)] ++
          optField "params" p))).map Rpc.Message.jsonrpcTag = some s) ∧
    (∀ (s mth : String) (i : Rpc.Id) (p : Option Json),
      (Rpc.decodeMessage (.obj ([("jsonrpc", .str s), ("id", Rpc.encodeId i),
          ("method", .str mth)] ++ optField "params" p))).map Rpc.Message.jsonrpcTag
        = some s) ∧
    (∀ (s : String) (i : Rpc.Id) (r : Option Json) (e : Option Rpc.RpcError),
      i.wf → Rpc.errWf e →
      (Rpc.decodeMessage (.obj ([("jsonrpc", .str s), ("id", Rpc.encodeId i)] ++
          optField "result" r ++
          optField "error" (e.map Rpc.encodeRpcError)))).map Rpc.Message.jsonrpcTag
        = some s) := by
  refine ⟨?_, ?_, ?_⟩
  · intro s mth p
    cases p <;> rfl
  · intro s mth i p
    rw [reqShapeDecode]
    rfl
  · intro s i r e hi he
    rw [respShapeDecode s i r e hi he]
    rfl

/-- C10 witness: concrete instances of each of the three shapes, with
`jsonrpc` set to "1.0", all decode and preserve the string. -/
theorem c10_witness :
    (Rpc.decodeMessage (.obj ([("jsonrpc", .str "1.0"), ("method", .str "m")] ++
        optField "params" none))).map Rpc.Message.jsonrpcTag = some "1.0" ∧
    (Rpc.decodeMessage (.obj ([("jsonrpc", .str "1.0"), ("id", Rpc.encodeId (.str "a")),
        ("method", .str "m")] ++ optField "params" none))).map Rpc.Message.jsonrpcTag
      = some "1.0" ∧
    (Rpc.decodeMessage (.obj ([("jsonrpc", .str "1.0"), ("id", Rpc.encodeId (.str "a"))] ++
        optField "result" none ++
        optField "error" (Option.map Rpc.encodeRpcError none)))).map Rpc.Message.jsonrpcTag
      = some "1.0" :=
  ⟨c10_jsonrpc_not_validated.1 "1.0" "m" none,
   c10_jsonrpc_not_validated.2.1 "1.0" "m" (.str "a") none,
   c10_jsonrpc_not_validated.2.2 "1.0" (.str "a") none none trivial trivial⟩

/-! ### Claims about the match engine -/

/-- The advance loop performs at most one completion-handler call per
record, whatever the state. -/
theorem advanceGo_calls_len (now : Nat) (idx : Int) (body : String) :
    ∀ (insts acc : List GroupedRegexMatches),
      (advanceGo now idx body acc insts).calls.length ≤ 1 := by
  intro insts
  induction insts with
  | nil => intro acc; simp [advanceGo]
  | cons inst rest ih =>
      intro acc
      simp only [advanceGo]
      split
      · split
        · exact ih _
        · split
          · split
            · simp
            · exact ih _
          · exact ih _
      · exact ih _

/-- When the advance loop breaks at position `i`, the completing instance
sits at position `i` of the resulting list, the single handler call ran
against exactly that list, and everything beyond position `i` is the input
unchanged. -/
theorem advanceGo_break_spec (now : Nat) (idx : Int) (body : String) :
    ∀ (insts acc : List GroupedRegexMatches) (i : Nat),
      (advanceGo now idx body acc insts).breakAt = some i →
      acc.length ≤ i ∧
      (advanceGo now idx body acc insts).instances.drop (i + 1)
        = insts.drop (i + 1 - acc.length) ∧
      ∃ inst,
        (advanceGo now idx body acc insts).calls
          = [⟨inst.captures, (advanceGo now idx body acc insts).instances,
              inst.matcher.complete inst.index inst.captures⟩] ∧
        (advanceGo now idx body acc insts).instances[i]? = some inst := by
  intro insts
  induction insts with
  | nil => intro acc i h; simp [advanceGo] at h
  | cons inst rest ih =>
      intro acc i h
      rcases hr : advanceGo now idx body acc (inst :: rest) with ⟨insts2, brk, calls⟩
      rw [hr] at h
      simp only at h ⊢
      simp only [advanceGo] at hr
      have fromRec : ∀ x : GroupedRegexMatches,
          advanceGo now idx body (acc ++ [x]) rest = ⟨insts2, brk, calls⟩ →
          acc.length ≤ i ∧
          insts2.drop (i + 1) = (inst :: rest).drop (i + 1 - acc.length) ∧
          ∃ inst3, calls = [⟨inst3.captures, insts2, inst3.matcher.complete inst3.index
              inst3.captures⟩] ∧ insts2[i]? = some inst3 := by
        intro x hx
        have hx2 := ih (acc ++ [x]) i (by rw [hx]; exact h)
        rw [hx] at hx2
        simp only at hx2
        obtain ⟨h1, h2, inst3, h3, h4⟩ := hx2
        simp only [List.length_append, List.length_cons, List.length_nil] at h1
        refine ⟨by omega, ?_, inst3, h3, h4⟩
        rw [h2]
        have hn : i + 1 - acc.length = (i - acc.length) + 1 := by omega
        rw [hn, List.drop_succ_cons]
        congr 1
        simp only [List.length_append, List.length_cons, List.length_nil]
        omega
      split at hr
      · split at hr
        · exact fromRec _ hr
        · split at hr
          · split at hr
            · rename_i nr hnr mp hmp hle
              cases hr
              cases h
              refine ⟨Nat.le_refl _, ?_, ?_⟩
              · rw [List.append_cons, List.drop_left']
                · simp
                · simp
              · refine ⟨{ inst with last := now, captures := ⟨inst.captures.vec ++ [mp]⟩ },
                  rfl, ?_⟩
                rw [List.getElem?_append_right (Nat.le_refl _)]
                simp
            · exact fromRec _ hr
          · exact fromRec _ hr
      · exact fromRec _ hr

/-- C1: the garbage-collection step is inverted in the code.  On a record
that advances nothing, the instance that is still inside its timeout
(last 100, timeout 1000, now 200) is REMOVED, while the expired instance
(last 0, timeout 100, now 200 > 100) is KEPT — the `retain` predicate
`last + timeout < now` keeps exactly the expired instances.  The spec-GC
variant (`processRecordSpecGC`) shows the claimed behavior: the live
instance is kept and the expired one removed. -/
theorem c1_gc_inverted :
    (processRecord grouped_regex_matchers 200 42 "zzz"
        [connInstAt 100 1000, connInstAt 0 100]).instances.map
      (fun inst => (inst.last, inst.timeout)) = [(0, 100)] ∧
    (processRecordSpecGC grouped_regex_matchers 200 42 "zzz"
        [connInstAt 100 1000, connInstAt 0 100]).instances.map
      (fun inst => (inst.last, inst.timeout)) = [(100, 1000)] :=
  ⟨rfl, rfl⟩

/-- C4 counterexample: two partially-progressed Connect instances at the
same index BOTH advance on one `UserName` record (each gains the `user`
capture), and the loop does not break — the engine does not stop after the
first advancing instance, only after a completing one. -/
theorem c4_counterexample :
    ((advanceGo 0 42 "LogServerList: UserName: Bob" []
        [connInstAt 0 1000, connInstAt 0 1000]).instances.map
      (fun inst => inst.captures.vec))
      = [[[], [("user", "Bob")]], [[], [("user", "Bob")]]] ∧
    (advanceGo 0 42 "LogServerList: UserName: Bob" []
        [connInstAt 0 1000, connInstAt 0 1000]).breakAt = none :=
  ⟨rfl, rfl⟩

/-- C4 (amended): per record, the advance loop stops only at the first
COMPLETING instance: at most one completion-handler call is made, and when
the loop breaks at position `i` every instance after position `i` is left
unchanged for that record.  Instances before the break point may each have
advanced (see the counterexample), contrary to the claim's
one-advance-stops-iteration reading. -/
theorem c4_amended (now : Nat) (idx : Int) (body : String)
    (insts : List GroupedRegexMatches) :
    (advanceGo now idx body [] insts).calls.length ≤ 1 ∧
    ∀ i, (advanceGo now idx body [] insts).breakAt = some i →
      (advanceGo now idx body [] insts).instances.drop (i + 1) = insts.drop (i + 1) := by
  refine ⟨advanceGo_calls_len now idx body insts [], ?_⟩
  intro i h
  have hs := (advanceGo_break_spec now idx body insts [] i h).2.1
  simpa using hs

/-- C4 amended, witness: in a two-instance state whose first instance
completes, the loop breaks at position 0 and the second instance is
untouched. -/
theorem c4_amended_witness :
    (advanceGo 7 5 "LogChat: a: b" [] [chatSeedInst, chatSeedInst]).instances.drop 1
      = [chatSeedInst, chatSeedInst].drop 1 :=
  (c4_amended 7 5 "LogChat: a: b" [chatSeedInst, chatSeedInst]).2 0 rfl

/-- C5 counterexample: when an instance completes, its handler runs while
the instance is still a member of the active list — the call's
active-set snapshot is nonempty and consists exactly of the completing
instance (same captures); removal happens only after the handler call. -/
theorem c5_counterexample :
    ((advanceGo 7 5 "LogChat: a: b" [] [chatSeedInst]).calls.map
        (fun c => (c.activeAtCall.map (fun inst => inst.captures.vec),
                   c.completedCaptures.vec)))
      = [([[[("user", "a"), ("message", "b")]]], [[("user", "a"), ("message", "b")]])] ∧
    (advanceGo 7 5 "LogChat: a: b" [] [chatSeedInst]).breakAt = some 0 :=
  ⟨rfl, rfl⟩

/-- C5 (amended): the completion handler runs BEFORE the instance is
removed — at handler time the active set is the full advanced list, with
the completing instance at the break position — and the instance is then
removed immediately afterwards, before the record's processing continues:
the post-record state is exactly that list with position `i` erased, and
nothing else happens for that record. -/
theorem c5_amended (ms : List GroupedRegexMatcher) (now : Nat) (idx : Int)
    (body : String) (insts : List GroupedRegexMatches) (i : Nat)
    (h : (advanceGo now idx body [] insts).breakAt = some i) :
    ((advanceGo now idx body [] insts).calls.map (fun c => c.activeAtCall))
      = [(advanceGo now idx body [] insts).instances] ∧
    ((advanceGo now idx body [] insts).instances[i]?).map
        (fun inst => inst.captures.vec)
      = ((advanceGo now idx body [] insts).calls.head?).map
        (fun c => c.completedCaptures.vec) ∧
    (processRecord ms now idx body insts).instances
      = (advanceGo now idx body [] insts).instances.eraseIdx i ∧
    (processRecord ms now idx body insts).trace
      = (advanceGo now idx body [] insts).calls := by
  obtain ⟨-, -, inst, hc, hg⟩ := advanceGo_break_spec now idx body insts [] i h
  refine ⟨?_, ?_, ?_, ?_⟩
  · rw [hc]
    simp
  · rw [hg, hc]
    simp
  · simp [processRecord, h]
  · simp [processRecord, h]

/-- C5 amended, witness: the concrete completing scenario, instantiated. -/
theorem c5_amended_witness :
    ((advanceGo 7 5 "LogChat: a: b" [] [chatSeedInst]).calls.map
        (fun c => c.activeAtCall))
      = [(advanceGo 7 5 "LogChat: a: b" [] [chatSeedInst]).instances] ∧
    ((advanceGo 7 5 "LogChat: a: b" [] [chatSeedInst]).instances[0]?).map
        (fun inst => inst.captures.vec)
      = ((advanceGo 7 5 "LogChat: a: b" [] [chatSeedInst]).calls.head?).map
        (fun c => c.completedCaptures.vec) ∧
    (processRecord grouped_regex_matchers 7 5 "LogChat: a: b" [chatSeedInst]).instances
      = (advanceGo 7 5 "LogChat: a: b" [] [chatSeedInst]).instances.eraseIdx 0 ∧
    (processRecord grouped_regex_matchers 7 5 "LogChat: a: b" [chatSeedInst]).trace
      = (advanceGo 7 5 "LogChat: a: b" [] [chatSeedInst]).calls :=
  c5_amended grouped_regex_matchers 7 5 "LogChat: a: b" [chatSeedInst] 0 rfl

/-- C6: feeding the single chat line through the pipeline.  The log-line
parser yields record `(5, "LogChat: alice: hello world")`; processing that
record emits exactly the chat notification on the event bus; its serialized
form is the expected JSON line; the fan-out branch enqueues that line to
every plugin's stdin channel; and the stdin pump writes it to the plugin's
stdin followed by a newline. -/
theorem c6_chat_round_trip :
    parseLogLine "[2024.01.01-00.00.00:000][  5]LogChat: alice: hello world"
      = some (5, "LogChat: alice: hello world") ∧
    (∀ now : Nat,
      emittedOf (processRecord grouped_regex_matchers now 5
          "LogChat: alice: hello world" []).trace = [BusMessage.rpc chatAliceMsg]) ∧
    serializeJson (Rpc.encodeMessage chatAliceMsg) = chatAliceLine ∧
    (∀ queues : List (List String),
      fanOutRpc chatAliceMsg queues = queues.map (fun q => q ++ [chatAliceLine])) ∧
    (∀ q : List String,
      pumpOutput (q ++ [chatAliceLine]) = pumpOutput q ++ (chatAliceLine ++ "\n")) := by
  refine ⟨rfl, fun now => rfl, rfl, fun queues => rfl, fun q => ?_⟩
  induction q with
  | nil => rfl
  | cons x rest ih =>
      simp only [List.cons_append, pumpOutput, List.append_eq]
      rw [ih]
      simp [String.append_assoc]

/-- C7: the four connect lines at index 42, spaced within the timeout.
Under the code as written, NO notification is emitted and no instance
survives: the inverted `retain` of line 317 garbage-collects the
freshly-seeded (live) instance at the end of the very record that created
it.  Under the spec's garbage collection (`processLogSpecGC`) the same
four records emit exactly one `connect` notification with params
`{name: "Bob", uuid: <the UserId parsed as a UUID>}` — the `handle`
capture is consumed but never surfaced. -/
theorem c7_connect_gc_bug :
    emittedOf (processLog grouped_regex_matchers joinRecords []).2 = [] ∧
    (processLog grouped_regex_matchers joinRecords []).1 = [] ∧
    emittedOf (processLogSpecGC grouped_regex_matchers joinRecords []).2
      = [BusMessage.rpc connectBobMsg] ∧
    (processLogSpecGC grouped_regex_matchers joinRecords []).1 = [] ∧
    serializeJson (Rpc.encodeMessage connectBobMsg)
      = "\x7b\"jsonrpc\":\"2.0\",\"method\":\"connect\",\"params\":\x7b\"name\":\"Bob\",\"uuid\":\"12345678-1234-5678-1234-567812345678\"\x7d\x7d" :=
  ⟨rfl, rfl, rfl, rfl, rfl⟩

/-! ### Claims about the plugin stdout router -/

/-- C8 counterexample: the malformed line `not-json` is dropped SILENTLY —
the router takes the `continue` arm, producing no warn log and no effect
(the claim asserts a warn is logged); and a well-formed `log` notification
whose params do not decode as a `LogPayload` does not warn-and-drop but
PANICS the router task via `try_into().unwrap()`. -/
theorem c8_counterexample :
    routeLine "p" "not-json" = RouterOutcome.dropped ∧
    routeLine "p" badLogLine = RouterOutcome.panicked :=
  ⟨rfl, rfl⟩

/-- C8 (amended): a line that fails JSON parsing or RPC shape
discrimination is silently dropped — no crash, no effect, no log, the
plugin stays alive; but a `log` notification whose params fail to decode
as a `LogPayload` panics the router task instead. -/
theorem c8_amended :
    (∀ (pname line : String),
      (parseJson line).bind Rpc.decodeMessage = none →
      routeLine pname line = RouterOutcome.dropped) ∧
    (∀ pname : String, routeLine pname badLogLine = RouterOutcome.panicked) := by
  constructor
  · intro pname line h
    unfold routeLine
    cases hp : parseJson line with
    | none => rfl
    | some j =>
        rw [hp] at h
        simp only [Option.some_bind] at h
        simp [h]
  · intro pname
    rfl

/-- C8 amended, witness: the concrete malformed line, and the concrete
panicking payload line. -/
theorem c8_amended_witness :
    Option.bind (parseJson "not-json") Rpc.decodeMessage = none ∧
    routeLine "plug" "not-json" = RouterOutcome.dropped ∧
    routeLine "plug" badLogLine = RouterOutcome.panicked :=
  ⟨rfl, c8_amended.1 "plug" "not-json" rfl, c8_amended.2 "plug"⟩
